import Mathlib

/-!
Shallow embedding of the proofreading-assistant synchronization core
(`src/App.tsx`, `src/utils/word.ts`): suggestion store, cross-category
pruning on apply/dismiss, check-cycle orchestration with staggered
branches, stats computation, highlight batching, hover debouncing, and
document read/replace.  External collaborators (the Word document API,
the suggestion provider transport) are modelled at their boundary,
following the specification where their code is not in the repository.
-/

set_option maxRecDepth 4000

namespace SyncCore

/-! ## Text primitives -/

/-- JS whitespace predicate: the character class matched by the regexp
class backslash-s in JavaScript (space, tab, LF, VT, FF, CR, NBSP, and
the Unicode space separators). -/
def jsIsSpace (c : Char) : Bool :=
  let n := c.toNat
  n == 0x20 || n == 0x09 || n == 0x0A || n == 0x0B || n == 0x0C || n == 0x0D ||
  n == 0xA0 || n == 0x1680 || (decide (0x2000 ≤ n) && decide (n ≤ 0x200A)) ||
  n == 0x2028 || n == 0x2029 || n == 0x202F || n == 0x205F || n == 0x3000 || n == 0xFEFF

/-- Characters of a string with JS whitespace stripped from both ends:
the model of `String.prototype.trim`. -/
def jsTrimChars (l : List Char) : List Char :=
  ((l.dropWhile jsIsSpace).reverse.dropWhile jsIsSpace).reverse

/-- Model of `text.trim()` in JavaScript. -/
def jsTrim (s : String) : String :=
  String.mk (jsTrimChars s.data)

/-- Maximal whitespace-free runs of a character list, accumulator first
reversed: the model of splitting on a whitespace regexp and dropping
empty pieces. -/
def wordsAux : List Char → List Char → List (List Char)
  | [], acc => if acc.isEmpty then [] else [acc.reverse]
  | c :: cs, acc =>
    if jsIsSpace c then
      if acc.isEmpty then wordsAux cs [] else acc.reverse :: wordsAux cs []
    else wordsAux cs (c :: acc)

/-- Whitespace-delimited tokens of a string. -/
def wordTokens (s : String) : List String :=
  (wordsAux s.data []).map String.mk

/-- Model of `text.trim().split(slash-s-plus).filter(Boolean).length`
from `performMainCheck` (App.tsx line 243): the number of
whitespace-delimited tokens. -/
def countWordsJs (s : String) : Nat :=
  (wordTokens s).length

/-- Join character runs with a single space between them. -/
def joinSpace : List (List Char) → List Char
  | [] => []
  | [l] => l
  | l :: l2 :: rest => l ++ ' ' :: joinSpace (l2 :: rest)

/-- Modelled from the spec: `normalize` lives in `src/utils/normalize`,
which is not in the repository snapshot.  Per the specification it folds
case, trims boundary whitespace, and collapses internal whitespace
variance, and is pure, deterministic, total and idempotent. -/
def normalize (s : String) : String :=
  String.mk (joinSpace (wordsAux (s.data.map Char.toLower) []))

/-! ## Data model (App.tsx type definitions) -/

/-- `Correction` (spelling suggestion): matching field `wrong`. -/
structure Correction where
  wrong : String
  suggestions : List String
  position : Option Nat
deriving Repr, DecidableEq

/-- `ToneSuggestion`: matching field `current`. -/
structure ToneSuggestion where
  current : String
  suggestion : String
  reason : String
  position : Option Nat
deriving Repr, DecidableEq

/-- `StyleSuggestion`: matching field `current`. -/
structure StyleSuggestion where
  current : String
  suggestion : String
  type : String
  position : Option Nat
deriving Repr, DecidableEq

/-- Entry of `StyleMixing.corrections`: matching field `current`. -/
structure StyleMixingCorrection where
  current : String
  suggestion : String
  type : String
  position : Option Nat
deriving Repr, DecidableEq

/-- `StyleMixing` aggregate record; `corrections` is an optional list. -/
structure StyleMixing where
  detected : Bool
  recommendedStyle : Option String
  reason : Option String
  corrections : Option (List StyleMixingCorrection)
deriving Repr, DecidableEq

/-- `PunctuationIssue`: matching field `currentSentence`. -/
structure PunctuationIssue where
  issue : String
  currentSentence : String
  correctedSentence : String
  explanation : String
  position : Option Nat
deriving Repr, DecidableEq

/-- `EuphonyImprovement`: matching field `current`. -/
structure EuphonyImprovement where
  current : String
  suggestions : List String
  reason : String
  position : Option Nat
deriving Repr, DecidableEq

/-- `ContentAnalysis`: informational only, never pruned. -/
structure ContentAnalysis where
  contentType : String
  description : Option String
  missingElements : Option (List String)
  suggestions : Option (List String)
deriving Repr, DecidableEq

/-- The stats record `{ totalWords, errorCount, accuracy }`. -/
structure Stats where
  totalWords : Nat
  errorCount : Nat
  accuracy : Int
deriving Repr, DecidableEq

/-- The suggestion store: the bundle of App.tsx data-state variables
(`corrections`, `toneSuggestions`, `styleSuggestions`,
`languageStyleMixing`, `punctuationIssues`, `euphonyImprovements`,
`contentAnalysis`, `stats`). -/
structure Store where
  corrections : List Correction
  toneSuggestions : List ToneSuggestion
  styleSuggestions : List StyleSuggestion
  languageStyleMixing : Option StyleMixing
  punctuationIssues : List PunctuationIssue
  euphonyImprovements : List EuphonyImprovement
  contentAnalysis : Option ContentAnalysis
  stats : Stats
deriving Repr, DecidableEq

/-- The reset value of the stats record (App.tsx lines 128 and 322). -/
def resetStats : Stats :=
  { totalWords := 0, errorCount := 0, accuracy := 100 }

/-- The store after the reset step of a check cycle (App.tsx lines
315-322): every collection empty, stats reset. -/
def resetStore : Store :=
  { corrections := []
    toneSuggestions := []
    styleSuggestions := []
    languageStyleMixing := none
    punctuationIssues := []
    euphonyImprovements := []
    contentAnalysis := none
    stats := resetStats }

/-! ## Cross-category pruning (App.tsx `handleReplace` / `dismissSuggestion`) -/

/-- The update applied to `languageStyleMixing` by both `handleReplace`
(App.tsx lines 177-181) and the `mixing` case of `dismissSuggestion`
(lines 208-212): keep the record if it is absent or has no corrections
list; otherwise filter its corrections by `keep`, collapsing the whole
record to absent when the filtered list is empty. -/
def pruneMixingOpt (keep : String → Bool) : Option StyleMixing → Option StyleMixing
  | none => none
  | some m =>
    match m.corrections with
    | none => some m
    | some cs =>
      let filtered := cs.filter (fun c => keep c.current)
      if filtered.length > 0 then some { m with corrections := some filtered } else none

/-- The success branch of `handleReplace` (App.tsx lines 168-181):
filter every category, and the entries nested in
`languageStyleMixing.corrections`, by the canonical key `target`. -/
def pruneStore (target : String) (s : Store) : Store :=
  { s with
    corrections := s.corrections.filter (fun c => normalize c.wrong != target)
    toneSuggestions := s.toneSuggestions.filter (fun t => normalize t.current != target)
    styleSuggestions := s.styleSuggestions.filter (fun t => normalize t.current != target)
    euphonyImprovements := s.euphonyImprovements.filter (fun e => normalize e.current != target)
    punctuationIssues := s.punctuationIssues.filter (fun p => normalize p.currentSentence != target)
    languageStyleMixing :=
      pruneMixingOpt (fun t => normalize t != target) s.languageStyleMixing }

/-- The first component of `dismissSuggestion` (App.tsx line 191): which
single category the caller asks to dismiss from. -/
inductive DismissType where
  | spelling
  | tone
  | style
  | mixing
  | punct
  | euphony
deriving Repr, DecidableEq

/-- `dismissSuggestion(type, textToDismiss)` (App.tsx lines 190-221):
switches on `type` and filters that one category by the normalized
target; for `mixing` it prunes `languageStyleMixing.corrections` with
collapse-to-absent.  The document is not touched. -/
def dismissSuggestion (ty : DismissType) (textToDismiss : String) (s : Store) : Store :=
  let target := normalize textToDismiss
  match ty with
  | DismissType.spelling =>
    { s with corrections := s.corrections.filter (fun c => normalize c.wrong != target) }
  | DismissType.tone =>
    { s with toneSuggestions := s.toneSuggestions.filter (fun t => normalize t.current != target) }
  | DismissType.style =>
    { s with styleSuggestions := s.styleSuggestions.filter (fun t => normalize t.current != target) }
  | DismissType.mixing =>
    { s with languageStyleMixing :=
        pruneMixingOpt (fun t => normalize t != target) s.languageStyleMixing }
  | DismissType.punct =>
    { s with punctuationIssues :=
        s.punctuationIssues.filter (fun p => normalize p.currentSentence != target) }
  | DismissType.euphony =>
    { s with euphonyImprovements :=
        s.euphonyImprovements.filter (fun e => normalize e.current != target) }

/-! ## Document model and `replaceInWord` (word.ts) -/

/-- Does the lowercased needle occur at index `i` of the lowercased
document characters? -/
def matchAt (hay needle : List Char) (i : Nat) : Bool :=
  needle.isPrefixOf (hay.drop i)

/-- Modelled from the spec: whole-word boundaries for the external Word
search primitive (Document Adapter contract): the match is bounded by
whitespace or a document edge on both sides. -/
def boundaryOk (hay needle : List Char) (i : Nat) : Bool :=
  (i == 0 || jsIsSpace (hay.getD (i - 1) ' ')) &&
  (decide (hay.length ≤ i + needle.length) || jsIsSpace (hay.getD (i + needle.length) ' '))

/-- Modelled from the spec: the external Word search primitive
(`body.search` with `matchCase: false`, used by word.ts).  Returns, in
document order, the indices at which the needle matches
case-insensitively; when `wholeWord` is set only matches bounded by word
boundaries qualify. -/
def searchPositions (doc needle : String) (wholeWord : Bool) : List Nat :=
  let hay := doc.data.map Char.toLower
  let nd := needle.data.map Char.toLower
  (List.range hay.length).filter
    (fun i => matchAt hay nd i && (!wholeWord || boundaryOk hay nd i))

/-- `replaceInWord(oldText, newText)` (word.ts lines 113-149): trims the
needle, refuses an empty needle, searches case-insensitively (whole-word
exactly when the trimmed needle has no internal whitespace), replaces
only the first match in document order, and reports whether any match
existed.  The document is a string; highlight state is not modelled. -/
def replaceInWord (doc oldText newText : String) : Bool × String :=
  let clean := jsTrim oldText
  if clean = "" then (false, doc)
  else
    match searchPositions doc clean (!(clean.data.any jsIsSpace)) with
    | [] => (false, doc)
    | i :: _ =>
      (true, String.mk (doc.data.take i ++ newText.data ++ doc.data.drop (i + clean.data.length)))

/-- `handleReplace(oldText, newText)` (App.tsx lines 164-187): calls
`replaceInWord`; on success prunes every category by
`normalize(oldText.trim())`; on failure only shows a message, leaving
the store untouched.  Returns the success flag, the resulting document,
and the resulting store. -/
def handleReplace (doc oldText newText : String) (s : Store) : Bool × String × Store :=
  let res := replaceInWord doc oldText newText
  if res.1 then (true, res.2, pruneStore (normalize (jsTrim oldText)) s)
  else (false, res.2, s)

/-- Decidable check that no suggestion with canonical key `target`
remains anywhere in the store: in the five flat categories or nested in
`languageStyleMixing.corrections`; additionally a surviving
`languageStyleMixing` never carries an empty-but-present corrections
list. -/
def noKeyRemains (target : String) (s : Store) : Bool :=
  s.corrections.all (fun c => normalize c.wrong != target) &&
  s.toneSuggestions.all (fun t => normalize t.current != target) &&
  s.styleSuggestions.all (fun t => normalize t.current != target) &&
  s.punctuationIssues.all (fun p => normalize p.currentSentence != target) &&
  s.euphonyImprovements.all (fun e => normalize e.current != target) &&
  (match s.languageStyleMixing with
   | none => true
   | some m =>
     match m.corrections with
     | none => true
     | some cs => !cs.isEmpty && cs.all (fun c => normalize c.current != target))

/-! ## Stats (App.tsx lines 242-249) -/

/-- The stats computation at the end of `performMainCheck`:
`totalWords` from the whitespace token count, `errorCount` the number of
spelling suggestions, `accuracy` JS `Math.round(((words - errorCount) /
words) * 100)` when `words > 0`, else `100`.  JS `Math.round` is
round-half-up, which is `round` on exact rationals. -/
def computeStats (text : String) (errorCount : Nat) : Stats :=
  let words := countWordsJs text
  { totalWords := words
    errorCount := errorCount
    accuracy :=
      if words > 0 then round ((((words : ℚ) - (errorCount : ℚ)) / (words : ℚ)) * 100)
      else 100 }

/-- Follows the spec words for the stats recomputation, for comparison
with `computeStats`: accuracy is `round(100 * (totalWords - errorCount)
/ totalWords)` when `totalWords > 0`, else 100. -/
def statsSpec (text : String) (errorCount : Nat) : Stats :=
  let words := countWordsJs text
  { totalWords := words
    errorCount := errorCount
    accuracy :=
      if words > 0 then round ((100 * ((words : ℚ) - (errorCount : ℚ))) / (words : ℚ))
      else 100 }

/-! ## Provider responses and branch ingestion (App.tsx lines 226-295)

The transport `callGeminiJson` lives in `src/utils/api`, which is not
in the repository snapshot.  Modelled from the spec: it returns the
parsed structured response, or null for a provider error or an
unparseable response, and never raises; a branch outcome is therefore an
`Option` of the typed response. -/

/-- Recognized fields of the main-branch provider response; each may be
missing (`result.spellingErrors || []` etc. supplies the default). -/
structure MainResponse where
  spellingErrors : Option (List Correction)
  punctuationIssues : Option (List PunctuationIssue)
  euphonyImprovements : Option (List EuphonyImprovement)
  languageStyleMixing : Option StyleMixing
deriving Repr, DecidableEq

/-- Recognized field of the tone-branch provider response. -/
structure ToneResponse where
  toneConversions : Option (List ToneSuggestion)
deriving Repr, DecidableEq

/-- Recognized field of the style-branch provider response. -/
structure StyleResponse where
  styleConversions : Option (List StyleSuggestion)
deriving Repr, DecidableEq

/-- `performMainCheck` (App.tsx lines 226-252) given the provider
outcome: on null returns null without touching the store; otherwise
ingests spelling, punctuation, euphony and mixing (defaulting each
missing `position` to 0), recomputes stats from the spelling count, and
returns the spelling list. -/
def performMainCheck (text : String) (resp : Option MainResponse) (s : Store) :
    Option (List Correction) × Store :=
  match resp with
  | none => (none, s)
  | some result =>
    let spelling := (result.spellingErrors.getD []).map
      (fun e => { e with position := some (e.position.getD 0) })
    let mixing : Option StyleMixing :=
      match result.languageStyleMixing with
      | none => none
      | some m =>
        match m.corrections with
        | none => some m
        | some cs =>
          let cs2 := cs.map (fun c => { c with position := some (c.position.getD 0) })
          some { m with corrections := some cs2 }
    (some spelling,
     { s with
       corrections := spelling
       punctuationIssues := (result.punctuationIssues.getD []).map
         (fun p => { p with position := some (p.position.getD 0) })
       euphonyImprovements := (result.euphonyImprovements.getD []).map
         (fun e => { e with position := some (e.position.getD 0) })
       languageStyleMixing := mixing
       stats := computeStats text spelling.length })

/-- `performToneCheck` (App.tsx lines 255-263) given the provider
outcome: on null returns null without touching the store; otherwise
ingests the tone conversions (defaulting positions) and returns them. -/
def performToneCheck (resp : Option ToneResponse) (s : Store) :
    Option (List ToneSuggestion) × Store :=
  match resp with
  | none => (none, s)
  | some result =>
    let tones := (result.toneConversions.getD []).map
      (fun t => { t with position := some (t.position.getD 0) })
    (some tones, { s with toneSuggestions := tones })

/-- `performStyleCheck` (App.tsx lines 266-274), same shape as the tone
branch. -/
def performStyleCheck (resp : Option StyleResponse) (s : Store) :
    Option (List StyleSuggestion) × Store :=
  match resp with
  | none => (none, s)
  | some result =>
    let styles := (result.styleConversions.getD []).map
      (fun t => { t with position := some (t.position.getD 0) })
    (some styles, { s with styleSuggestions := styles })

/-- `analyzeContentLogic` (App.tsx lines 277-295): stores the content
analysis only when the provider returned one. -/
def analyzeContentLogic (resp : Option ContentAnalysis) (s : Store) : Store :=
  match resp with
  | none => s
  | some r => { s with contentAnalysis := some r }

/-! ## The check cycle after the refusal gate (App.tsx lines 325-367) -/

/-- The style selection (`'none' | 'sadhu' | 'cholito'`). -/
inductive StyleChoice where
  | none
  | sadhu
  | cholito
deriving Repr, DecidableEq, Inhabited

/-- An entry of the batched highlight call (text, color, position). -/
structure HighlightItem where
  text : String
  color : String
  position : Option Nat
deriving Repr, DecidableEq

/-- The item list built for the one batched highlight (App.tsx lines
359-363): spelling, then tone, then style, with their colors. -/
def highlightItemsOf (spelling : List Correction) (tones : List ToneSuggestion)
    (styles : List StyleSuggestion) : List HighlightItem :=
  spelling.map (fun i => { text := i.wrong, color := "#fee2e2", position := i.position }) ++
  tones.map (fun i => { text := i.current, color := "#fef3c7", position := i.position }) ++
  styles.map (fun i => { text := i.current, color := "#ccfbf1", position := i.position })

/-- The batched-highlight adapter calls issued at the end of a cycle
(App.tsx lines 365-367): one call with the item list when it is
nonempty, otherwise none. -/
def batchesOf (spelling : List Correction) (tones : List ToneSuggestion)
    (styles : List StyleSuggestion) : List (List HighlightItem) :=
  let items := highlightItemsOf spelling tones styles
  if items.length > 0 then [items] else []

/-- One check cycle from the reset step on (App.tsx lines 314-367),
as a function of the document text, the selections, and the four branch
outcomes: resets the store, runs the four branches (a deselected tone or
style branch resolves to an empty list without a provider outcome),
joins all four results, and computes the batched highlight from the
spelling, tone, and style results only.  Returns the final store and
the list of batched highlight calls issued. -/
def checkCycle (text : String) (selectedTone : String) (selectedStyle : StyleChoice)
    (mainResp : Option MainResponse) (toneResp : Option ToneResponse)
    (styleResp : Option StyleResponse) (contentResp : Option ContentAnalysis) :
    Store × List (List HighlightItem) :=
  let s0 := resetStore
  let m := performMainCheck text mainResp s0
  let t := if selectedTone ≠ "" then performToneCheck toneResp m.2 else (some [], m.2)
  let st := if selectedStyle ≠ StyleChoice.none then performStyleCheck styleResp t.2
            else (some [], t.2)
  let s4 := analyzeContentLogic contentResp st.2
  (s4, batchesOf (m.1.getD []) (t.1.getD []) (st.1.getD []))

/-! Per-branch projections of the cycle, used to state that each
category of the result depends only on its own branch outcome. -/

/-- Spelling list produced by the main branch: empty on failure. -/
def mainSpellingOf (resp : Option MainResponse) : List Correction :=
  match resp with
  | none => []
  | some r => (r.spellingErrors.getD []).map
      (fun e => { e with position := some (e.position.getD 0) })

/-- Punctuation list produced by the main branch: empty on failure. -/
def mainPunctOf (resp : Option MainResponse) : List PunctuationIssue :=
  match resp with
  | none => []
  | some r => (r.punctuationIssues.getD []).map
      (fun p => { p with position := some (p.position.getD 0) })

/-- Euphony list produced by the main branch: empty on failure. -/
def mainEuphonyOf (resp : Option MainResponse) : List EuphonyImprovement :=
  match resp with
  | none => []
  | some r => (r.euphonyImprovements.getD []).map
      (fun e => { e with position := some (e.position.getD 0) })

/-- Mixing record produced by the main branch: absent on failure. -/
def mainMixingOf (resp : Option MainResponse) : Option StyleMixing :=
  match resp with
  | none => none
  | some r =>
    match r.languageStyleMixing with
    | none => none
    | some m =>
      match m.corrections with
      | none => some m
      | some cs =>
        let cs2 := cs.map (fun c => { c with position := some (c.position.getD 0) })
        some { m with corrections := some cs2 }

/-- Stats produced by the main branch: the reset stats on failure. -/
def mainStatsOf (text : String) (resp : Option MainResponse) : Stats :=
  match resp with
  | none => resetStats
  | some r => computeStats text (mainSpellingOf (some r)).length

/-- Tone list: empty when no tone is selected or the branch failed. -/
def toneListOf (selectedTone : String) (resp : Option ToneResponse) :
    List ToneSuggestion :=
  if selectedTone ≠ "" then
    match resp with
    | none => []
    | some r => (r.toneConversions.getD []).map
        (fun t => { t with position := some (t.position.getD 0) })
  else []

/-- Style list: empty when no style is selected or the branch failed. -/
def styleListOf (selectedStyle : StyleChoice) (resp : Option StyleResponse) :
    List StyleSuggestion :=
  if selectedStyle ≠ StyleChoice.none then
    match resp with
    | none => []
    | some r => (r.styleConversions.getD []).map
        (fun t => { t with position := some (t.position.getD 0) })
  else []

/-! ## Branch dispatch plan (App.tsx lines 327-347) -/

/-- How one of the four branches is scheduled: either it resolves
instantly to an empty list without contacting the provider, or its
provider call is dispatched once `delayMs` milliseconds have elapsed. -/
inductive BranchPlan where
  | resolveEmptyNow
  | providerCallAfter (delayMs : Nat)
deriving Repr, DecidableEq, Inhabited

/-- The four tasks pushed by `checkSpelling`, in order: main at once,
tone after 200ms only when a tone is selected, style after 400ms only
when a style other than none is selected, content analysis always after
600ms; a deselected branch resolves to an empty list immediately. -/
def cyclePlan (selectedTone : String) (selectedStyle : StyleChoice) : List BranchPlan :=
  [BranchPlan.providerCallAfter 0,
   if selectedTone ≠ "" then BranchPlan.providerCallAfter 200 else BranchPlan.resolveEmptyNow,
   if selectedStyle ≠ StyleChoice.none then BranchPlan.providerCallAfter 400
   else BranchPlan.resolveEmptyNow,
   BranchPlan.providerCallAfter 600]

/-! ## The refusal gate of `checkSpelling` (App.tsx lines 298-323) -/

/-- Observable side effects of the opening of a check run. -/
inductive CheckEvent where
  | docRead
  | reset
  | providerCall
deriving Repr, DecidableEq

/-- How the opening of a check run ends. -/
inductive CheckOutcome where
  | refusedMissingCredential
  | refusedEmptyDocument
  | ran
deriving Repr, DecidableEq

/-- The gate of `checkSpelling` (App.tsx lines 298-323): with no
credential it refuses at once (no document read, no reset, no provider
call); otherwise it reads the document and refuses when the text is
empty after trimming, before any reset or provider call; otherwise the
run proceeds to reset and dispatch.  Returns the outcome and the side
effects performed, in order. -/
def checkSpellingGate (apiKey fetchedText : String) : CheckOutcome × List CheckEvent :=
  if apiKey = "" then (CheckOutcome.refusedMissingCredential, [])
  else if jsTrim fetchedText = "" then
    (CheckOutcome.refusedEmptyDocument, [CheckEvent.docRead])
  else
    (CheckOutcome.ran, [CheckEvent.docRead, CheckEvent.reset, CheckEvent.providerCall])

/-! ## Document read (word.ts `getTextFromWord`, lines 7-30) -/

/-- Outcome of the underlying Word API read: either the call throws, or
it yields the current selection text and the body text. -/
inductive WordRead where
  | throwErr (msg : String)
  | ok (selectionText bodyText : String)
deriving Repr, DecidableEq

/-- Normalize line endings: CRLF and lone CR both become LF. -/
def normNewlines : List Char → List Char
  | [] => []
  | '\r' :: '\n' :: rest => '\n' :: normNewlines rest
  | '\r' :: rest => '\n' :: normNewlines rest
  | c :: rest => c :: normNewlines rest

/-- `getTextFromWord` (word.ts lines 7-30): on any error returns the
empty string; otherwise returns the selection text when it is nonempty
after trimming, else the body text, with line endings normalized. -/
def getTextFromWord : WordRead → String
  | WordRead.throwErr _ => ""
  | WordRead.ok sel body =>
    if sel ≠ "" ∧ jsTrim sel ≠ "" then String.mk (normNewlines sel.data)
    else String.mk (normNewlines body.data)

/-! ## Hover highlight debouncing (App.tsx lines 153-161) -/

/-- A hover event: when it happens and what it asks to highlight. -/
structure Hover where
  time : Nat
  text : String
  color : String
  position : Option Nat
deriving Repr, DecidableEq

/-- The timer scheduled by `handleHighlight`: fires at `fireAt` with the
recorded text and color (the position argument is ignored by
`highlightInWord`). -/
structure Pending where
  fireAt : Nat
  text : String
  color : String
deriving Repr, DecidableEq

/-- One hover processed by `handleHighlight`: a previously scheduled
timer that already elapsed has fired (its adapter call happened and
`clearTimeout` on it is a no-op); an unelapsed one is cancelled; then a
new timer is scheduled 300ms after the hover. -/
def debStep (st : List (String × String) × Option Pending) (h : Hover) :
    List (String × String) × Option Pending :=
  let fired :=
    match st.2 with
    | some p => if p.fireAt ≤ h.time then st.1 ++ [(p.text, p.color)] else st.1
    | none => st.1
  (fired, some { fireAt := h.time + 300, text := h.text, color := h.color })

/-- The adapter highlight calls produced by a finite hover sequence
(in time order), letting the final pending timer fire at the end. -/
def runDebounce (hovers : List Hover) : List (String × String) :=
  let st := hovers.foldl debStep ([], none)
  match st.2 with
  | some p => st.1 ++ [(p.text, p.color)]
  | none => st.1

/-! ## Concrete example data used by counterexamples and witnesses -/

/-- A store holding the same canonical key in two categories. -/
def c1Store : Store :=
  { resetStore with
    corrections := [{ wrong := "word", suggestions := ["ward"], position := some 0 }]
    toneSuggestions :=
      [{ current := "word", suggestion := "term", reason := "tone", position := some 0 }] }

/-- A store holding the key `bad` in spelling, tone (case-variant), and
nested in `StyleMixing.corrections`. -/
def c2Store : Store :=
  { resetStore with
    corrections := [{ wrong := "bad", suggestions := ["good"], position := some 0 }]
    toneSuggestions :=
      [{ current := "Bad", suggestion := "fine", reason := "tone", position := some 0 }]
    languageStyleMixing := some
      { detected := true
        recommendedStyle := some "cholito"
        reason := some "mix"
        corrections :=
          some [{ current := "bad", suggestion := "good", type := "mix", position := some 0 }] } }

/-- A main-branch response in which every recognized field is present
but empty: the provider found nothing. -/
def c7MainResp : MainResponse :=
  { spellingErrors := some []
    punctuationIssues := some []
    euphonyImprovements := some []
    languageStyleMixing := none }

/-- A content analysis result. -/
def c7Content : ContentAnalysis :=
  { contentType := "essay", description := some "d", missingElements := none, suggestions := none }

/-- Last element of the nonempty hover list `prev :: hs`. -/
def lastHover (prev : Hover) (hs : List Hover) : Hover :=
  hs.foldl (fun _ h => h) prev

/-! ## Theorems -/

/-- The stats computed by the code equal the stats the spec words
describe: the two accuracy formulas agree on exact rationals. -/
theorem computeStats_eq_statsSpec (text : String) (errN : Nat) :
    computeStats text errN = statsSpec text errN := by
  have harg : (((countWordsJs text : ℚ) - (errN : ℚ)) / (countWordsJs text : ℚ)) * 100 =
      (100 * ((countWordsJs text : ℚ) - (errN : ℚ))) / (countWordsJs text : ℚ) := by
    ring
  simp [computeStats, statsSpec, harg]

/-- Decomposition of the check cycle: every component of the resulting
store, and the batched highlight, depends only on its own branch
outcome. -/
theorem checkCycle_decomp (text selTone : String) (selStyle : StyleChoice)
    (mainResp : Option MainResponse) (toneResp : Option ToneResponse)
    (styleResp : Option StyleResponse) (contentResp : Option ContentAnalysis) :
    checkCycle text selTone selStyle mainResp toneResp styleResp contentResp =
      ({ corrections := mainSpellingOf mainResp
         toneSuggestions := toneListOf selTone toneResp
         styleSuggestions := styleListOf selStyle styleResp
         languageStyleMixing := mainMixingOf mainResp
         punctuationIssues := mainPunctOf mainResp
         euphonyImprovements := mainEuphonyOf mainResp
         contentAnalysis := contentResp
         stats := mainStatsOf text mainResp },
       batchesOf (mainSpellingOf mainResp) (toneListOf selTone toneResp)
         (styleListOf selStyle styleResp)) := by
  cases mainResp <;> cases toneResp <;> cases styleResp <;> cases contentResp <;>
    by_cases ht : selTone = "" <;> by_cases hs : selStyle = StyleChoice.none <;>
      simp [checkCycle, performMainCheck, performToneCheck, performStyleCheck,
        analyzeContentLogic, mainSpellingOf, mainPunctOf, mainEuphonyOf, mainMixingOf,
        mainStatsOf, toneListOf, styleListOf, resetStore, ht, hs]

/-- The pruned mixing record never retains a matching correction and is
never an empty-but-present record. -/
theorem pruneMixingOpt_sound (target : String) (o : Option StyleMixing) :
    (match pruneMixingOpt (fun t => normalize t != target) o with
     | none => true
     | some m =>
       match m.corrections with
       | none => true
       | some cs => !cs.isEmpty && cs.all (fun c => normalize c.current != target)) = true := by
  cases o with
  | none => rfl
  | some m =>
    cases hc : m.corrections with
    | none => simp [pruneMixingOpt, hc]
    | some cs =>
      simp only [pruneMixingOpt, hc]
      by_cases hl : (cs.filter (fun c => normalize c.current != target)).length > 0
      · rw [if_pos hl]
        show (!(cs.filter (fun c => normalize c.current != target)).isEmpty &&
          (cs.filter (fun c => normalize c.current != target)).all
            (fun c => normalize c.current != target)) = true
        have h1 : (cs.filter (fun c => normalize c.current != target)).isEmpty = false := by
          cases hfe : cs.filter (fun c => normalize c.current != target) with
          | nil => rw [hfe] at hl; simp at hl
          | cons a l => rfl
        have h2 : (cs.filter (fun c => normalize c.current != target)).all
            (fun c => normalize c.current != target) = true := by
          simp only [List.all_eq_true, List.mem_filter]
          exact fun c hc2 => hc2.2
        rw [h1, h2]
        rfl
      · rw [if_neg hl]

/-- After the success-branch pruning no suggestion with the target key
remains in any category of the store. -/
theorem noKeyRemains_pruneStore (target : String) (s : Store) :
    noKeyRemains target (pruneStore target s) = true := by
  have hmix := pruneMixingOpt_sound target s.languageStyleMixing
  simp only [noKeyRemains, pruneStore] at hmix ⊢
  simp [List.all_eq_true, List.mem_filter, hmix]

/-- C1 (counterexample): dismissing the key `word` through the spelling
category prunes the spelling list but leaves a tone suggestion whose
normalized matching field equals the target, so dismiss does not perform
cross-category pruning. -/
theorem dismiss_cross_category_cex :
    (dismissSuggestion DismissType.spelling "word" c1Store).corrections = [] ∧
    (dismissSuggestion DismissType.spelling "word" c1Store).toneSuggestions =
      c1Store.toneSuggestions ∧
    ((dismissSuggestion DismissType.spelling "word" c1Store).toneSuggestions.any
      (fun t => normalize t.current == normalize "word")) = true := by
  decide

/-- C1 (amended): `dismissSuggestion(type, text)` prunes only the
category named by `type`, removing there every suggestion whose
normalized matching field equals the normalized target (for the mixing
category it prunes `StyleMixing.corrections`, collapsing the record to
absent when emptied); every other category, the stats, the content
analysis, and the document are untouched. -/
theorem dismiss_prunes_named_category_only (ty : DismissType) (txt : String) (s : Store) :
    (dismissSuggestion ty txt s).corrections =
      (if ty = DismissType.spelling then
        s.corrections.filter (fun c => normalize c.wrong != normalize txt)
       else s.corrections) ∧
    (dismissSuggestion ty txt s).toneSuggestions =
      (if ty = DismissType.tone then
        s.toneSuggestions.filter (fun t => normalize t.current != normalize txt)
       else s.toneSuggestions) ∧
    (dismissSuggestion ty txt s).styleSuggestions =
      (if ty = DismissType.style then
        s.styleSuggestions.filter (fun t => normalize t.current != normalize txt)
       else s.styleSuggestions) ∧
    (dismissSuggestion ty txt s).languageStyleMixing =
      (if ty = DismissType.mixing then
        pruneMixingOpt (fun t => normalize t != normalize txt) s.languageStyleMixing
       else s.languageStyleMixing) ∧
    (dismissSuggestion ty txt s).punctuationIssues =
      (if ty = DismissType.punct then
        s.punctuationIssues.filter (fun p => normalize p.currentSentence != normalize txt)
       else s.punctuationIssues) ∧
    (dismissSuggestion ty txt s).euphonyImprovements =
      (if ty = DismissType.euphony then
        s.euphonyImprovements.filter (fun e => normalize e.current != normalize txt)
       else s.euphonyImprovements) ∧
    (dismissSuggestion ty txt s).contentAnalysis = s.contentAnalysis ∧
    (dismissSuggestion ty txt s).stats = s.stats := by
  cases ty <;> simp [dismissSuggestion]

/-- C2: when apply succeeds (the document replace reports a match),
every suggestion whose normalized matching field equals the canonical
target is removed from every category, including entries nested inside
`StyleMixing.corrections`; a surviving mixing record never carries an
empty corrections list, so emptied corrections collapse the record to
absent. -/
theorem apply_success_prunes_all_categories (doc oldText newText : String) (s : Store)
    (h : (handleReplace doc oldText newText s).1 = true) :
    noKeyRemains (normalize (jsTrim oldText)) (handleReplace doc oldText newText s).2.2 = true := by
  by_cases hr : (replaceInWord doc oldText newText).1 = true
  · simp [handleReplace, hr, noKeyRemains_pruneStore]
  · simp [handleReplace, hr] at h

/-- C2 (witness): applying `bad` against the document `bad day` on the
concrete store succeeds and removes the key from spelling, tone, and the
nested mixing corrections, collapsing the mixing record. -/
theorem apply_success_prunes_all_categories_witness :
    (handleReplace "bad day" "bad" "good" c2Store).1 = true ∧
    noKeyRemains (normalize (jsTrim "bad")) (handleReplace "bad day" "bad" "good" c2Store).2.2 = true :=
  ⟨by decide, apply_success_prunes_all_categories "bad day" "bad" "good" c2Store (by decide)⟩

/-- C3: when the replace finds no document match, the operation reports
failure and leaves the document and the whole store (all collections,
mixing, content analysis, stats) exactly as they were. -/
theorem apply_failure_preserves_store (doc oldText newText : String) (s : Store)
    (h : (replaceInWord doc oldText newText).1 = false) :
    handleReplace doc oldText newText s = (false, doc, s) := by
  have hd : (replaceInWord doc oldText newText).2 = doc := by
    unfold replaceInWord at h ⊢
    by_cases hc : jsTrim oldText = ""
    · simp [hc]
    · simp only [hc, if_false] at h ⊢
      cases hm : searchPositions doc (jsTrim oldText) (!((jsTrim oldText).data.any jsIsSpace)) with
      | nil => simp [hm]
      | cons i rest => simp [hm] at h
  simp [handleReplace, h, hd]

/-- C3 (witness): replacing the absent needle `xyz` in `hello there`
reports failure and leaves the concrete store byte-identical. -/
theorem apply_failure_preserves_store_witness :
    (replaceInWord "hello there" "xyz" "q").1 = false ∧
    handleReplace "hello there" "xyz" "q" c2Store = (false, "hello there", c2Store) :=
  ⟨by decide, apply_failure_preserves_store "hello there" "xyz" "q" c2Store (by decide)⟩

/-- C4: each branch outcome determines only its own categories of the
resulting store; a failed branch (null outcome) degrades to an empty
result for that branch alone, the other branches' results are all
ingested (the join consumes all four outcomes, never short-circuiting),
and the cycle proceeds to compute the batched highlight from the settled
spelling, tone, and style results. -/
theorem cycle_branch_failure_isolated (text selTone : String) (selStyle : StyleChoice)
    (mainResp : Option MainResponse) (toneResp : Option ToneResponse)
    (styleResp : Option StyleResponse) (contentResp : Option ContentAnalysis) :
    checkCycle text selTone selStyle mainResp toneResp styleResp contentResp =
      ({ corrections := mainSpellingOf mainResp
         toneSuggestions := toneListOf selTone toneResp
         styleSuggestions := styleListOf selStyle styleResp
         languageStyleMixing := mainMixingOf mainResp
         punctuationIssues := mainPunctOf mainResp
         euphonyImprovements := mainEuphonyOf mainResp
         contentAnalysis := contentResp
         stats := mainStatsOf text mainResp },
       batchesOf (mainSpellingOf mainResp) (toneListOf selTone toneResp)
         (styleListOf selStyle styleResp)) ∧
    mainSpellingOf none = [] ∧ mainPunctOf none = [] ∧ mainEuphonyOf none = [] ∧
    mainMixingOf none = none ∧ mainStatsOf text none = resetStats ∧
    toneListOf selTone none = [] ∧ styleListOf selStyle none = [] :=
  ⟨checkCycle_decomp text selTone selStyle mainResp toneResp styleResp contentResp,
   rfl, rfl, rfl, rfl, rfl, by simp [toneListOf], by simp [styleListOf]⟩

/-- C5: the stats ingested by a successful main branch are exactly the
spec formula (token count, spelling-suggestion count, rounded accuracy
with the zero-word guard), the error count is the spelling list length,
and in particular ten words with three errors give accuracy 70. -/
theorem cycle_stats_formula (text : String) (r : MainResponse) (s : Store) :
    (performMainCheck text (some r) s).2.stats =
      statsSpec text (mainSpellingOf (some r)).length ∧
    (mainSpellingOf (some r)).length = (r.spellingErrors.getD []).length ∧
    computeStats "w1 w2 w3 w4 w5 w6 w7 w8 w9 w10" 3 =
      { totalWords := 10, errorCount := 3, accuracy := 70 } := by
  refine ⟨?_, by simp [mainSpellingOf], ?_⟩
  · simp [performMainCheck, mainSpellingOf, ← computeStats_eq_statsSpec]
  · have hw : countWordsJs "w1 w2 w3 w4 w5 w6 w7 w8 w9 w10" = 10 := by decide
    simp only [computeStats, hw]
    norm_num [round_eq]

/-- C6: every cycle pushes exactly four branch tasks, in order: the main
branch dispatched with no delay; the tone branch resolving immediately
to an empty list with no provider call when no tone is selected and
otherwise dispatched only after the 200ms stagger; the style branch
likewise at 400ms gated on a style other than none; and the content
analysis branch always dispatched after 600ms. -/
theorem cycle_plan_staggering (selTone : String) (selStyle : StyleChoice) :
    cyclePlan selTone selStyle =
      [BranchPlan.providerCallAfter 0,
       (if selTone = "" then BranchPlan.resolveEmptyNow else BranchPlan.providerCallAfter 200),
       (if selStyle = StyleChoice.none then BranchPlan.resolveEmptyNow
        else BranchPlan.providerCallAfter 400),
       BranchPlan.providerCallAfter 600] ∧
    (cyclePlan selTone selStyle).length = 4 := by
  by_cases ht : selTone = "" <;> by_cases hs : selStyle = StyleChoice.none <;>
    simp [cyclePlan, ht, hs]

/-- C7 (counterexample): a fully successful check cycle whose branches
return no suggestions issues zero batched highlight calls, not exactly
one: the batch call is guarded by a nonempty item list. -/
theorem initial_batch_empty_cycle_cex :
    (checkCycle "hello world" "" StyleChoice.none (some c7MainResp) none none
      (some c7Content)).2 = [] := by
  rw [checkCycle_decomp]
  decide

/-- C7 (amended): a check cycle issues at most one batched highlight
call: exactly one when the combined item list is nonempty, none when it
is empty; the one call's items are exactly the matching-field texts of
the spelling, tone, and style results with their colors, in that order,
so punctuation, euphony, and StyleMixing suggestions never appear in the
initial batch. -/
theorem initial_batch_contents (text selTone : String) (selStyle : StyleChoice)
    (mainResp : Option MainResponse) (toneResp : Option ToneResponse)
    (styleResp : Option StyleResponse) (contentResp : Option ContentAnalysis) :
    (checkCycle text selTone selStyle mainResp toneResp styleResp contentResp).2 =
      (if (highlightItemsOf (mainSpellingOf mainResp) (toneListOf selTone toneResp)
            (styleListOf selStyle styleResp)).length > 0
       then [highlightItemsOf (mainSpellingOf mainResp) (toneListOf selTone toneResp)
              (styleListOf selStyle styleResp)]
       else []) ∧
    (checkCycle text selTone selStyle mainResp toneResp styleResp contentResp).2.length ≤ 1 := by
  have hd := checkCycle_decomp text selTone selStyle mainResp toneResp styleResp contentResp
  rw [hd]
  constructor
  · rfl
  · show (batchesOf _ _ _).length ≤ 1
    by_cases h : (highlightItemsOf (mainSpellingOf mainResp) (toneListOf selTone toneResp)
      (styleListOf selStyle styleResp)).length > 0 <;> simp [batchesOf, h]

/-- C8: with a missing credential the check run refuses at once, with no
document read, no provider call, and no reset; with a credential but a
document text empty after trimming it refuses after only the document
read, again before any provider call or reset, so collections, stats and
highlights are untouched in both refusal cases. -/
theorem runCheck_refusals (key fetched : String) :
    (key = "" → checkSpellingGate key fetched = (CheckOutcome.refusedMissingCredential, [])) ∧
    (key ≠ "" → jsTrim fetched = "" →
      checkSpellingGate key fetched = (CheckOutcome.refusedEmptyDocument, [CheckEvent.docRead])) := by
  constructor
  · intro hk
    simp [checkSpellingGate, hk]
  · intro hk hf
    simp [checkSpellingGate, hk, hf]

/-- C8 (witness): the two refusal paths at concrete inputs. -/
theorem runCheck_refusals_witness :
    checkSpellingGate "" "hello" = (CheckOutcome.refusedMissingCredential, []) ∧
    checkSpellingGate "k" "   " = (CheckOutcome.refusedEmptyDocument, [CheckEvent.docRead]) :=
  ⟨(runCheck_refusals "" "hello").1 rfl,
   (runCheck_refusals "k" "   ").2 (by decide) (by decide)⟩

/-- The optional last element of a nonempty list agrees with
`lastHover`. -/
theorem getLast?_eq_lastHover (prev : Hover) (hs : List Hover) :
    (prev :: hs).getLast? = some (lastHover prev hs) := by
  induction hs generalizing prev with
  | nil => rfl
  | cons h2 hs ih =>
    rw [List.getLast?_cons_cons]
    exact ih h2

/-- Folding a burst of hovers, each strictly within 300ms of its
predecessor, from a freshly scheduled timer fires nothing: every hover
cancels the pending timer and reschedules for itself. -/
theorem debounce_aux (calls : List (String × String)) (prev : Hover) (hs : List Hover)
    (hch : List.Chain' (fun a b : Hover => a.time ≤ b.time ∧ b.time < a.time + 300)
      (prev :: hs)) :
    List.foldl debStep
        (calls, some { fireAt := prev.time + 300, text := prev.text, color := prev.color }) hs =
      (calls, some { fireAt := (lastHover prev hs).time + 300, text := (lastHover prev hs).text,
                     color := (lastHover prev hs).color }) := by
  induction hs generalizing prev with
  | nil => rfl
  | cons h2 hs ih =>
    obtain ⟨h12, hch2⟩ := List.chain'_cons.mp hch
    rw [List.foldl_cons]
    have hnf : ¬ (prev.time + 300 ≤ h2.time) := by omega
    have hstep :
        debStep (calls, some { fireAt := prev.time + 300, text := prev.text, color := prev.color })
            h2 =
          (calls, some { fireAt := h2.time + 300, text := h2.text, color := h2.color }) := by
      simp [debStep, hnf]
    rw [hstep]
    exact ih h2 hch2

/-- C9: for any nonempty hover sequence in which every hover arrives
strictly within 300ms of the previous one, exactly one adapter highlight
call is produced, and it is for the last-hovered text and color. -/
theorem debounce_single_call_last_text (hovers : List Hover) (lh : Hover)
    (hch : List.Chain' (fun a b : Hover => a.time ≤ b.time ∧ b.time < a.time + 300) hovers)
    (hlast : hovers.getLast? = some lh) :
    runDebounce hovers = [(lh.text, lh.color)] := by
  cases hovers with
  | nil => simp at hlast
  | cons h0 hs =>
    rw [getLast?_eq_lastHover] at hlast
    have hl : lastHover h0 hs = lh := Option.some.inj hlast
    have hfold : List.foldl debStep ([], none) (h0 :: hs) =
        ([], some { fireAt := (lastHover h0 hs).time + 300, text := (lastHover h0 hs).text,
                    color := (lastHover h0 hs).color }) := by
      rw [List.foldl_cons]
      exact debounce_aux [] h0 hs hch
    simp [runDebounce, hfold, hl]

/-- C9 (witness): three hovers on distinct texts at 0ms, 100ms and 250ms
produce exactly one adapter call, for the last-hovered text. -/
theorem debounce_single_call_last_text_witness :
    runDebounce
        [{ time := 0, text := "alpha", color := "#fee2e2", position := some 0 },
         { time := 100, text := "beta", color := "#fef3c7", position := some 1 },
         { time := 250, text := "gamma", color := "#ccfbf1", position := some 2 }] =
      [("gamma", "#ccfbf1")] :=
  debounce_single_call_last_text
    [{ time := 0, text := "alpha", color := "#fee2e2", position := some 0 },
     { time := 100, text := "beta", color := "#fef3c7", position := some 1 },
     { time := 250, text := "gamma", color := "#ccfbf1", position := some 2 }]
    { time := 250, text := "gamma", color := "#ccfbf1", position := some 2 }
    (by norm_num [List.chain'_cons]) (by decide)

/-- C10: when the Word read throws, `getTextFromWord` returns the empty
string — exactly what it returns for an empty document — and the check
run then refuses with the empty-document refusal after only the document
read; a read failure is indistinguishable from an empty document at this
interface and never surfaces as an error. -/
theorem docRead_failure_reads_empty (key msg : String) (hk : key ≠ "") :
    getTextFromWord (WordRead.throwErr msg) = "" ∧
    getTextFromWord (WordRead.throwErr msg) = getTextFromWord (WordRead.ok "" "") ∧
    checkSpellingGate key (getTextFromWord (WordRead.throwErr msg)) =
      (CheckOutcome.refusedEmptyDocument, [CheckEvent.docRead]) := by
  have htrim : jsTrim "" = "" := rfl
  refine ⟨rfl, rfl, ?_⟩
  show checkSpellingGate key "" = _
  simp [checkSpellingGate, hk, htrim]

/-- C10 (witness): a concrete read failure against a run with a
credential present. -/
theorem docRead_failure_reads_empty_witness :
    getTextFromWord (WordRead.throwErr "boom") = "" ∧
    getTextFromWord (WordRead.throwErr "boom") = getTextFromWord (WordRead.ok "" "") ∧
    checkSpellingGate "k" (getTextFromWord (WordRead.throwErr "boom")) =
      (CheckOutcome.refusedEmptyDocument, [CheckEvent.docRead]) :=
  docRead_failure_reads_empty "k" "boom" (by decide)

end SyncCore
